import Mathlib

/-!
Verification of the text_sql_chatbot repository.

The development shallowly embeds the Python modules of the repository
(`modules/sql_validator.py`, `modules/project_manager.py`,
`modules/data_ingestion.py`, `modules/sql_executor.py`,
`modules/llm_client.py`, `modules/schema_extractor.py` and `app.py`)
as executable Lean definitions and proves properties of those definitions.

Strings are modelled over `List Char` / `String`.  Python string methods
(`strip`, `upper`, …) and the regular expressions used by the code
(`\b<kw>\b`, `[^\w]`, `'[^']*'`, `[?\n]+`) are modelled for ASCII text,
while Python's `\w`, `isalpha` and `strip` additionally handle non-ASCII
characters.  For the validator properties this is conservative: an ASCII
whole-word keyword occurrence is also a Python one, and the proved
properties are rejection properties at such occurrences.  For the
identifier sanitizers it is not conservative — Python lets non-ASCII word
characters such as `'é'` pass through `re.sub(r'[^\w]', …)` and
`str.isalpha()` unsanitized — so the sanitizer-shape theorem carries an
explicit hypothesis restricting inputs to `isModelledAscii` characters,
the exact domain on which this embedding and the source agree.
-/

namespace PyStr

/-- A word character in the sense of Python's regex `\w` (ASCII). -/
def isWordChar (c : Char) : Bool :=
  c.isAlphanum || c == '_'

/-- The whitespace characters stripped by Python's `str.strip()` (ASCII). -/
def isPySpace (c : Char) : Bool :=
  c == ' ' || c == '\t' || c == '\n' || c == '\r' || c == '\x0b' || c == '\x0c'

/-- Uppercasing of a single character, modelling Python's `str.upper` (ASCII). -/
def asciiUpper : Char → Char
  | 'a' => 'A' | 'b' => 'B' | 'c' => 'C' | 'd' => 'D' | 'e' => 'E' | 'f' => 'F'
  | 'g' => 'G' | 'h' => 'H' | 'i' => 'I' | 'j' => 'J' | 'k' => 'K' | 'l' => 'L'
  | 'm' => 'M' | 'n' => 'N' | 'o' => 'O' | 'p' => 'P' | 'q' => 'Q' | 'r' => 'R'
  | 's' => 'S' | 't' => 'T' | 'u' => 'U' | 'v' => 'V' | 'w' => 'W' | 'x' => 'X'
  | 'y' => 'Y' | 'z' => 'Z'
  | c => c

/-- Lowercasing of a single character, modelling Python's `str.lower` (ASCII). -/
def asciiLower : Char → Char
  | 'A' => 'a' | 'B' => 'b' | 'C' => 'c' | 'D' => 'd' | 'E' => 'e' | 'F' => 'f'
  | 'G' => 'g' | 'H' => 'h' | 'I' => 'i' | 'J' => 'j' | 'K' => 'k' | 'L' => 'l'
  | 'M' => 'm' | 'N' => 'n' | 'O' => 'o' | 'P' => 'p' | 'Q' => 'q' | 'R' => 'r'
  | 'S' => 's' | 'T' => 't' | 'U' => 'u' | 'V' => 'v' | 'W' => 'w' | 'X' => 'x'
  | 'Y' => 'y' | 'Z' => 'z'
  | c => c

/-- Python's `str.upper()` on a character list. -/
def pyUpper (l : List Char) : List Char :=
  l.map asciiUpper

/-- Python's `str.lower()` on a character list. -/
def pyLower (l : List Char) : List Char :=
  l.map asciiLower

/-- Python's `str.strip()` (strip whitespace from both ends). -/
def pyStrip (l : List Char) : List Char :=
  ((l.dropWhile isPySpace).reverse.dropWhile isPySpace).reverse

/-- A regex word boundary next to an occurrence: the neighbouring character
(`none` at the ends of the string) must not be a word character. -/
def boundary : Option Char → Bool
  | none => true
  | some c => !(isWordChar c)

/-- `re.search(r'\b' + kw + r'\b', l)` succeeds: `kw` occurs in `l` at some
position whose two neighbours are word boundaries. -/
def containsWholeWord (l kw : List Char) : Bool :=
  (List.range (l.length + 1)).any fun i =>
    kw.isPrefixOf (l.drop i) && boundary (l.take i).getLast?
      && boundary (l.drop (i + kw.length)).head?

/-- Python's `in` operator on strings: contiguous substring containment. -/
def isSubstring (kw l : List Char) : Bool :=
  (List.range (l.length + 1)).any fun i => kw.isPrefixOf (l.drop i)

/-- The characters on which this embedding of Python's `str.strip`, `\w`,
`isalpha`, `isdigit` and `lower` agrees with Python exactly: the ASCII
range without the separator control characters U+001C-U+001F (Python's
`str.strip` removes those as whitespace, this model does not).  Outside
this set Python's Unicode `\w` and `isalpha` accept characters such as
`'é'` that the ASCII model treats as non-word. -/
def isModelledAscii (c : Char) : Bool :=
  decide (c.toNat ≤ 127) && !(decide (28 ≤ c.toNat) && decide (c.toNat ≤ 31))

end PyStr

/-! Embedding of `modules/sql_validator.py` (class `SQLValidator`). -/

namespace SQLValidator

open PyStr

/-- `SQLValidator.DANGEROUS_KEYWORDS`. -/
def DANGEROUS_KEYWORDS : List String :=
  ["INSERT", "UPDATE", "DELETE", "DROP", "ALTER",
   "CREATE", "TRUNCATE", "GRANT", "REVOKE", "EXEC",
   "EXECUTE", "CALL", "MERGE", "REPLACE"]

/-- Python's `str.split('\n')`. -/
def splitLines : List Char → List (List Char)
  | [] => [[]]
  | c :: rest =>
    if c = '\n' then [] :: splitLines rest
    else
      match splitLines rest with
      | [] => [[c]]
      | line :: ls => (c :: line) :: ls

/-- Python's `'\n'.join(lines)`. -/
def joinLines (ls : List (List Char)) : List Char :=
  List.intercalate ['\n'] ls

/-- `SQLValidator._remove_leading_comments`: drop leading lines that are blank
or start (after stripping) with `--`; if every line is such, return the query
unchanged. -/
def removeLeadingComments (q : List Char) : List Char :=
  let lines := splitLines q
  match lines.findIdx? (fun line =>
      let s := pyStrip line
      !s.isEmpty && !(['-', '-'].isPrefixOf s)) with
  | some i => joinLines (lines.drop i)
  | none => q

/-- `SQLValidator._starts_with_select` on the normalized query. -/
def startsWithSelect (q : List Char) : Bool :=
  "SELECT".data.isPrefixOf (removeLeadingComments q)

/-- `SQLValidator._contains_dangerous_keywords`: the first deny-listed keyword
occurring as a regex whole word (`\b<kw>\b`), or `""` if none occurs. -/
def containsDangerousKeywords (q : List Char) : String :=
  match DANGEROUS_KEYWORDS.find? (fun kw => containsWholeWord q kw.data) with
  | some kw => kw
  | none => ""

/-- Scanner for `re.sub(r"'[^']*'", "", q)`.  `buf? = none` means we are
outside any candidate literal; `buf? = some buf` means we saw an opening
quote and `buf` holds (reversed) the characters read since.  A closing quote
deletes the whole literal; reaching the end with an open candidate emits the
quote and the buffered characters verbatim (the regex does not match an
unterminated quote). -/
def removeStringLiteralsAux : Option (List Char) → List Char → List Char
  | none, [] => []
  | none, c :: rest =>
    if c = '\'' then removeStringLiteralsAux (some []) rest
    else c :: removeStringLiteralsAux none rest
  | some buf, [] => '\'' :: buf.reverse
  | some buf, c :: rest =>
    if c = '\'' then removeStringLiteralsAux none rest
    else removeStringLiteralsAux (some (c :: buf)) rest

/-- `re.sub(r"'[^']*'", "", q)`: delete every non-overlapping single-quoted
string literal (a quote, any run of non-quotes, a quote). -/
def removeStringLiterals (l : List Char) : List Char :=
  removeStringLiteralsAux none l

/-- `SQLValidator._contains_multiple_statements`: more than one semicolon
after removing string literals. -/
def containsMultipleStatements (l : List Char) : Bool :=
  (removeStringLiterals l).count ';' > 1

/-- The normalized query: `sql_query.strip().upper()`. -/
def normalizedQuery (s : String) : List Char :=
  pyUpper (pyStrip s.data)

/-- `SQLValidator.validate`: returns `(is_valid, error_message)`. -/
def validate (s : String) : Bool × String :=
  if (pyStrip s.data).isEmpty then
    (false, "SQL query is empty")
  else if !startsWithSelect (normalizedQuery s) then
    (false, "Query must start with SELECT. Only SELECT queries are allowed.")
  else if containsDangerousKeywords (normalizedQuery s) ≠ "" then
    (false, "Dangerous operation detected: " ++
      containsDangerousKeywords (normalizedQuery s) ++
      ". Only SELECT queries are allowed.")
  else if containsMultipleStatements s.data then
    (false, "Multiple SQL statements are not allowed. Please use a single SELECT query.")
  else
    (true, "")

end SQLValidator

/-! Embedding of `modules/project_manager.py` (class `ProjectManager`).
The database is abstracted by a single flag `schemaExists` (the result of
`validate_schema_exists`). -/

namespace ProjectManager

open PyStr

/-- `self.schema_prefix_str`. -/
def schema_prefix_str : String := "proj_"

/-- The deny-list of system schemas in `ProjectManager.delete_project`. -/
def protected_schemas : List String :=
  ["public", "information_schema", "pg_catalog", "pg_toast"]

/-- The transformation chain of `ProjectManager.sanitize_name`: strip,
lowercase, replace spaces with underscores, then delete the remaining
non-word characters (`re.sub(r'[^\w]', '', ·)`).  The word-character test
is the ASCII model of Python's Unicode `\w` and agrees with the source
only for `isModelledAscii` inputs (Python keeps a character like `'é'`,
this model deletes it). -/
def nameFiltered (name : String) : List Char :=
  ((pyLower (pyStrip name.data)).map fun c => if c = ' ' then '_' else c).filter
    isWordChar

/-- `ProjectManager.sanitize_name`: empty inputs (before or after the
transformation chain) become `"unknown"`. -/
def sanitize_name (name : String) : String :=
  if name.data.isEmpty then "unknown"
  else if (nameFiltered name).isEmpty then "unknown"
  else String.mk (nameFiltered name)

/-- The effect of the `try` body of `ProjectManager.delete_project`:
`result` is what the body produces before the method's `except Exception`
handler runs (`.error` models a raised `ValueError`), `dropped` records
whether `DROP SCHEMA … CASCADE` was executed. -/
structure DeleteOutcome where
  result : Except String Bool
  dropped : Bool
deriving Repr

/-- The `try` body of `ProjectManager.delete_project` (lines 221-235). -/
def delete_project_body (schemaExists : Bool) (schema_name : String) : DeleteOutcome :=
  if !(schema_prefix_str.data.isPrefixOf schema_name.data) then
    { result := .error ("Cannot delete schema '" ++ schema_name ++
        "'. Must start with '" ++ schema_prefix_str ++ "'."),
      dropped := false }
  else if schema_name ∈ protected_schemas then
    { result := .error ("Cannot delete protected schema: " ++ schema_name),
      dropped := false }
  else if !schemaExists then
    { result := .ok false, dropped := false }
  else
    { result := .ok true, dropped := true }

/-- `ProjectManager.delete_project` as seen by its caller: the method's own
`except Exception` handler catches every raised error (including the two
guard `ValueError`s) and returns `False`, so the first component is always
`.ok`. -/
def delete_project (schemaExists : Bool) (schema_name : String) :
    Except String Bool × Bool :=
  match (delete_project_body schemaExists schema_name).result with
  | .ok b => (.ok b, (delete_project_body schemaExists schema_name).dropped)
  | .error _ => (.ok false, (delete_project_body schemaExists schema_name).dropped)

end ProjectManager

/-! Embedding of `modules/data_ingestion.py` (class `DataIngestor`),
identifier sanitizers. -/

namespace DataIngestor

open PyStr

/-- Scanner for `re.sub(r'_+', '_', ·)`: collapse each run of underscores to
a single underscore.  `prevUnderscore` records whether the previous kept
character was an underscore of the current run. -/
def collapseUnderscoresAux : List Char → Bool → List Char
  | [], _ => []
  | c :: rest, prevUnderscore =>
    if c = '_' then
      if prevUnderscore then collapseUnderscoresAux rest true
      else '_' :: collapseUnderscoresAux rest true
    else c :: collapseUnderscoresAux rest false

/-- `re.sub(r'_+', '_', l)`. -/
def collapseUnderscores (l : List Char) : List Char :=
  collapseUnderscoresAux l false

/-- The shared transformation chain of `sanitize_column_name` and
`sanitize_table_name`: strip; replace non-word characters with `_`
(`re.sub(r'[^\w]', '_', ·)`); collapse underscore runs
(`re.sub(r'_+', '_', ·)`); lowercase.  The word-character test is the
ASCII model of Python's Unicode `\w` and agrees with the source only for
`isModelledAscii` inputs (Python keeps a character like `'é'`, this model
replaces it with `'_'`). -/
def sanitizeCore (s : String) : List Char :=
  pyLower (collapseUnderscores
    ((pyStrip s.data).map fun c => if isWordChar c then c else '_'))

/-- The `col[0].isdigit()` guard of `sanitize_column_name`: prepend `col_`
when the first character is a digit. -/
def digitGuard (l : List Char) : List Char :=
  match l with
  | [] => l
  | d :: _ => if d.isDigit then "col_".data ++ l else l

/-- The `not name[0].isalpha()` guard of `sanitize_table_name`: prepend
`table_` when the first character is not a letter.  `Char.isAlpha` is the
ASCII model of Python's Unicode `isalpha` and agrees with the source only
for `isModelledAscii` inputs (`'é'.isalpha()` is true in Python, so the
source adds no escape there and returns the character unchanged). -/
def alphaGuard (l : List Char) : List Char :=
  match l with
  | [] => l
  | d :: _ => if !d.isAlpha then "table_".data ++ l else l

/-- `DataIngestor.sanitize_column_name`: the transformation chain, the digit
guard, the `unnamed_column` fallbacks for empty inputs, and truncation to 63
characters. -/
def sanitize_column_name (col : String) : String :=
  if (pyStrip col.data).isEmpty then "unnamed_column"
  else
    String.mk
      ((if (digitGuard (sanitizeCore col)).isEmpty then "unnamed_column".data
        else digitGuard (sanitizeCore col)).take 63)

/-- `DataIngestor.sanitize_table_name`: the transformation chain, the alpha
guard, the `data_table` fallbacks for empty inputs, and truncation to 63
characters. -/
def sanitize_table_name (name : String) : String :=
  if (pyStrip name.data).isEmpty then "data_table"
  else
    String.mk
      ((if (alphaGuard (sanitizeCore name)).isEmpty then "data_table".data
        else alphaGuard (sanitizeCore name)).take 63)

/-- The identifier shape claimed by the specification:
`^[a-z][a-z0-9_]*$` with length at most 63. -/
def matchesIdentifierPattern (s : String) : Bool :=
  (match s.data with
   | [] => false
   | c :: rest => c.isLower && rest.all fun d => d.isLower || d.isDigit || d == '_')
  && s.data.length ≤ 63

end DataIngestor

/-! Embedding of `modules/sql_executor.py` (class `SQLExecutor`). -/

namespace SQLExecutor

/-- Outcome of the body of the `try` block of `SQLExecutor.execute` after
the connection has been acquired: the `SET search_path` / `cursor.execute` /
`fetchall` sequence either succeeds with rows and column names, raises
`psycopg2.DatabaseError`, or raises some other exception. -/
inductive ExecEvent where
  | ok (rows : List (List String)) (cols : List String)
  | dbError (msg : String)
  | otherError (msg : String)
deriving DecidableEq, Repr

/-- Observable effect of one call to `SQLExecutor.execute`: how many
connections were taken from and returned to the pool, whether a rollback was
issued, and the returned `(success, results, column_names, error_message)`
tuple. -/
structure ExecTrace where
  acquired : Nat
  released : Nat
  rolledBack : Bool
  success : Bool
  results : Option (List (List String))
  columnNames : Option (List String)
  error : String
deriving DecidableEq, Repr

/-- `SQLExecutor.execute` (lines 41-71): the success path closes the cursor
and returns the connection to the pool; the two `except` branches return the
error tuple directly — they contain no rollback and no
`return_connection` call, and there is no `finally` block. -/
def execute (ev : ExecEvent) : ExecTrace :=
  match ev with
  | .ok rows cols =>
    { acquired := 1, released := 1, rolledBack := false,
      success := true, results := some rows, columnNames := some cols, error := "" }
  | .dbError m =>
    { acquired := 1, released := 0, rolledBack := false,
      success := false, results := none, columnNames := none,
      error := "Database error: " ++ m }
  | .otherError m =>
    { acquired := 1, released := 0, rolledBack := false,
      success := false, results := none, columnNames := none,
      error := "Execution error: " ++ m }

end SQLExecutor

/-! Embedding of `modules/llm_client.py` (class `GroqLLMClient`),
intent classification. -/

namespace GroqLLMClient

open PyStr

/-- `GroqLLMClient.classify_intent`, as a function of the chat-completion
outcome: `none` models the API call raising (the `except` branch), `some r`
models the model responding with content `r`.  The raw content is stripped,
uppercased, and tested for containment of the two markers in order. -/
def classify_intent (response : Option String) : String :=
  match response with
  | none => "NEEDS_DATABASE"
  | some r =>
    if isSubstring "NEEDS_DATABASE".data (pyUpper (pyStrip r.data)) then
      "NEEDS_DATABASE"
    else if isSubstring "GENERAL_CHAT".data (pyUpper (pyStrip r.data)) then
      "GENERAL_CHAT"
    else "NEEDS_DATABASE"

end GroqLLMClient

/-! Embedding of `modules/schema_extractor.py` (class `SchemaExtractor`),
value enrichment of one column.  The database is abstracted by the list of
distinct non-null values of the column: `_check_column_cardinality` counts
them and `_get_column_values` fetches them with `LIMIT max_unique_values + 1`
(a consistent database is assumed; the error fallbacks of those two helpers
are not modelled). -/

namespace SchemaExtractor

/-- Which of the enrichment suffixes `_format_enriched_schema` appends to a
column line. -/
inductive Enrichment where
  | plain
  | possibleValues (vs : List String)
  | tooManyToList (cardinality : Nat)
  | highCardinality (cardinality : Nat)
deriving DecidableEq, Repr

/-- Lines 252-268 of `_format_enriched_schema`, for a single column.
`is_excluded` is `table_name.lower() in self.excluded_tables`; `is_text` is
`self._is_text_column(col['type'])`; `distinctVals` is the column's distinct
non-null values. -/
def enrichColumn (max_unique_values : Nat) (is_excluded is_text : Bool)
    (distinctVals : List String) : Enrichment :=
  if !is_excluded && is_text then
    if 0 < distinctVals.length ∧ distinctVals.length ≤ max_unique_values then
      if (distinctVals.take (max_unique_values + 1)).length ≤ max_unique_values then
        .possibleValues ((distinctVals.take (max_unique_values + 1)).take
          max_unique_values)
      else
        .tooManyToList distinctVals.length
    else if distinctVals.length > max_unique_values then
      .highCardinality distinctVals.length
    else
      .plain
  else
    .plain

/-- The text appended to the column line for each enrichment. -/
def renderEnrichment : Enrichment → String
  | .plain => ""
  | .possibleValues vs =>
    "\n    → Possible Values: [" ++
      String.intercalate ", " (vs.map fun v => "'" ++ v ++ "'") ++ "]"
  | .tooManyToList c =>
    "\n    → Note: " ++ toString c ++ " distinct values (too many to list)"
  | .highCardinality c =>
    "\n    → Note: High cardinality (" ++ toString c ++ " distinct values)"

end SchemaExtractor

/-! Embedding of `app.py`: `split_questions` and the control flow of
`process_user_question`. -/

namespace App

open PyStr

/-- A separator character of the split regex `[?\n]+`. -/
def isQSep (c : Char) : Bool :=
  c == '?' || c == '\n'

/-- Scanner for `re.split(r'[?\n]+', ·)`: a maximal run of separators ends
the current segment.  `prevSep` records that we are inside a separator run
whose segment has already been emitted. -/
def splitQAux : List Char → List Char → Bool → List (List Char)
  | [], acc, _ => [acc.reverse]
  | c :: rest, acc, prevSep =>
    if isQSep c then
      if prevSep then splitQAux rest acc prevSep
      else acc.reverse :: splitQAux rest [] true
    else splitQAux rest (c :: acc) false

/-- `re.split(r'[?\n]+', l)`. -/
def splitOnQSeps (l : List Char) : List (List Char) :=
  splitQAux l [] false

/-- Python's `str.endswith('?')`. -/
def endsWithQM (l : List Char) : Bool :=
  l.getLast? == some '?'

/-- One iteration of the `for part in parts` loop of `split_questions`:
strip the part; keep it when nonempty, appending a `'?'` when it lacks one. -/
def cleanPart (part : List Char) : Option String :=
  if !(pyStrip part).isEmpty then
    some (String.mk (if endsWithQM (pyStrip part) then pyStrip part
      else pyStrip part ++ ['?']))
  else none

/-- The list built by the `for part in parts` loop of `split_questions`. -/
def questionsOf (user_input : String) : List String :=
  (splitOnQSeps user_input.data).filterMap cleanPart

/-- `app.split_questions`: fall back to the stripped raw input when no
nonempty part survives. -/
def split_questions (user_input : String) : List String :=
  if !(questionsOf user_input).isEmpty then questionsOf user_input
  else [String.mk (pyStrip user_input.data)]

/-- A chat-history role, the first argument of `insert_message` calls. -/
inductive Role where
  | user
  | assistant
deriving DecidableEq, Repr

/-- The outcome of one `execute_sql` call (`execute_sql` never raises). -/
structure ExecResult where
  success : Bool
  rowCount : Nat
deriving DecidableEq, Repr

/-- The outcomes of the external calls made by one run of
`process_user_question`, in program order:

* `setupRaises` — `get_chat_history_manager` / `get_llm_client` /
  `format_history_for_llm` raising before intent classification;
* `intentGeneral` — `classify_intent` returned `"GENERAL_CHAT"`
  (`classify_intent` and `general_chat` never raise, and `insert_message`
  catches its own errors);
* `textToSqlRaises` — `llm_client.text_to_sql` re-raises on API failure;
* `valid1` — the verdict of `validate_sql` on the generated SQL;
* `exec1` — the outcome of the first `execute_sql` call;
* `retryGenRaises` — `retry_query_on_empty_results` raising (caught by the
  retry block's own `try`);
* `valid2`, `exec2` — verdict and outcome for the corrected query;
* `resultToEnglishRaises` — `llm_client.result_to_english` re-raises
  (`describe_data_rows` never raises). -/
structure PipelineEnv where
  setupRaises : Bool
  intentGeneral : Bool
  textToSqlRaises : Bool
  valid1 : Bool
  exec1 : ExecResult
  retryGenRaises : Bool
  valid2 : Bool
  exec2 : ExecResult
  resultToEnglishRaises : Bool
deriving DecidableEq, Repr

/-- The terminal state of one run of `process_user_question`.  `aborted`
is the outer `except Exception` handler (line 811), which returns an error
message without touching the durable chat history. -/
inductive Terminal where
  | generalChat
  | validationFailure
  | executionFailure
  | answered
  | aborted
deriving DecidableEq, Repr

/-- The observable effects of one run of `process_user_question`:
number of SQL-generation calls (`text_to_sql` plus
`retry_query_on_empty_results`), number of `execute_sql` calls, the
`insert_message` calls in order, and the terminal state. -/
structure RunResult where
  genCalls : Nat
  execCalls : Nat
  inserted : List Role
  terminal : Terminal
deriving DecidableEq, Repr

/-- Whether the zero-result retry block of `process_user_question` runs:
the first execution succeeded with zero rows. -/
def retried (env : PipelineEnv) : Bool :=
  env.exec1.rowCount == 0

/-- Number of SQL-generation calls once the first execution succeeded:
the initial `text_to_sql` call, plus the single
`retry_query_on_empty_results` call when the retry block runs. -/
def genAfterExec (env : PipelineEnv) : Nat :=
  if retried env then 2 else 1

/-- Number of `execute_sql` calls once the first execution succeeded: the
corrected query is executed only when the retry block ran, its generation
call did not raise, and the corrected query passed validation. -/
def execsTotal (env : PipelineEnv) : Nat :=
  if retried env && (!env.retryGenRaises && env.valid2) then 2 else 1

/-- The control flow of `app.process_user_question` (lines 561-814).
Every terminal return that stores history stores exactly one user turn
followed by one assistant turn; the zero-result retry block runs at most
once and never recurses; when the retry's corrected query is invalid or
fails, the empty result set is kept and the run still ends in `answered`. -/
def process_user_question (env : PipelineEnv) : RunResult :=
  if env.setupRaises then
    { genCalls := 0, execCalls := 0, inserted := [], terminal := .aborted }
  else if env.intentGeneral then
    { genCalls := 0, execCalls := 0, inserted := [.user, .assistant],
      terminal := .generalChat }
  else if env.textToSqlRaises then
    { genCalls := 1, execCalls := 0, inserted := [], terminal := .aborted }
  else if !env.valid1 then
    { genCalls := 1, execCalls := 0, inserted := [.user, .assistant],
      terminal := .validationFailure }
  else if !env.exec1.success then
    { genCalls := 1, execCalls := 1, inserted := [.user, .assistant],
      terminal := .executionFailure }
  else if env.resultToEnglishRaises then
    { genCalls := genAfterExec env, execCalls := execsTotal env,
      inserted := [], terminal := .aborted }
  else
    { genCalls := genAfterExec env, execCalls := execsTotal env,
      inserted := [.user, .assistant], terminal := .answered }

end App


/-! ## Theorems -/

namespace PyStr

theorem isWordChar_asciiUpper (c : Char) : isWordChar (asciiUpper c) = isWordChar c := by
  unfold asciiUpper
  split <;> rfl

theorem boundary_map_asciiUpper (o : Option Char) :
    boundary (o.map asciiUpper) = boundary o := by
  cases o with
  | none => rfl
  | some c => simp [boundary, isWordChar_asciiUpper]

theorem isPySpace_eq_false_of_isWordChar {c : Char} (h : isWordChar c = true) :
    isPySpace c = false := by
  by_contra hs
  have hs' : isPySpace c = true := by
    cases hps : isPySpace c with
    | false => exact absurd hps hs
    | true => rfl
  have h6 : c = ' ' ∨ c = '\t' ∨ c = '\n' ∨ c = '\r' ∨ c = '\x0b' ∨ c = '\x0c' := by
    simp only [isPySpace, Bool.or_eq_true, beq_iff_eq] at hs'
    tauto
  rcases h6 with rfl | rfl | rfl | rfl | rfl | rfl <;> simp [isWordChar] at h

/-- Occurrence characterisation of `containsWholeWord`. -/
theorem containsWholeWord_iff (l kw : List Char) :
    containsWholeWord l kw = true ↔
      ∃ pre post, l = pre ++ (kw ++ post) ∧
        boundary pre.getLast? = true ∧ boundary post.head? = true := by
  unfold containsWholeWord
  rw [List.any_eq_true]
  constructor
  · rintro ⟨i, hi, h⟩
    rw [Bool.and_eq_true, Bool.and_eq_true] at h
    obtain ⟨⟨hpfx, hpre⟩, hpost⟩ := h
    have hkwpre : kw <+: l.drop i := by simpa using hpfx
    obtain ⟨post, hpostEq⟩ := hkwpre
    refine ⟨l.take i, post, ?_, hpre, ?_⟩
    · rw [hpostEq, List.take_append_drop]
    · have hdl : l.drop (i + kw.length) = post := by
        rw [← List.drop_drop, ← hpostEq, List.drop_left]
      rwa [hdl] at hpost
  · rintro ⟨pre, post, rfl, h1, h2⟩
    have h3 : (pre ++ (kw ++ post)).drop pre.length = kw ++ post :=
      List.drop_left pre (kw ++ post)
    have h4 : (pre ++ (kw ++ post)).take pre.length = pre :=
      List.take_left pre (kw ++ post)
    have h5 : (pre ++ (kw ++ post)).drop (pre.length + kw.length) = post := by
      rw [← List.drop_drop, h3, List.drop_left]
    refine ⟨pre.length, ?_, ?_⟩
    · rw [List.mem_range, List.length_append, List.length_append]
      omega
    · show (kw.isPrefixOf ((pre ++ (kw ++ post)).drop pre.length)
          && boundary ((pre ++ (kw ++ post)).take pre.length).getLast?
          && boundary ((pre ++ (kw ++ post)).drop (pre.length + kw.length)).head?) = true
      rw [h3, h4, h5]
      simp [h1, h2]

theorem boundary_getLast?_of_suffix {pre' pre : List Char} (hs : pre' <:+ pre)
    (h : boundary pre.getLast? = true) : boundary pre'.getLast? = true := by
  obtain ⟨t, rfl⟩ := hs
  cases hpe : pre' with
  | nil => rfl
  | cons a l =>
    rw [hpe] at h
    rwa [List.getLast?_append_of_ne_nil t (by simp)] at h

/-- A whole-word occurrence survives stripping leading whitespace. -/
theorem containsWholeWord_dropWhile (l kw : List Char)
    (hkw : ∀ c ∈ kw, isWordChar c = true) (hne : kw ≠ [])
    (h : containsWholeWord l kw = true) :
    containsWholeWord (l.dropWhile isPySpace) kw = true := by
  rw [containsWholeWord_iff] at h ⊢
  obtain ⟨pre, post, rfl, h1, h2⟩ := h
  obtain ⟨k0, ktl, rfl⟩ := List.exists_cons_of_ne_nil hne
  have hk0 : isPySpace k0 = false :=
    isPySpace_eq_false_of_isWordChar (hkw k0 (by simp))
  rw [List.dropWhile_append]
  by_cases he : (pre.dropWhile isPySpace).isEmpty
  · rw [if_pos he, List.cons_append, List.dropWhile_cons_of_neg (by simp [hk0])]
    exact ⟨[], post, by simp, rfl, h2⟩
  · rw [if_neg he]
    exact ⟨pre.dropWhile isPySpace, post, rfl,
      boundary_getLast?_of_suffix (List.dropWhile_suffix _) h1, h2⟩

/-- A whole-word occurrence survives stripping trailing whitespace. -/
theorem containsWholeWord_rstrip (l kw : List Char)
    (hkw : ∀ c ∈ kw, isWordChar c = true) (hne : kw ≠ [])
    (h : containsWholeWord l kw = true) :
    containsWholeWord ((l.reverse.dropWhile isPySpace).reverse) kw = true := by
  rw [containsWholeWord_iff] at h ⊢
  obtain ⟨pre, post, rfl, h1, h2⟩ := h
  have hrev : (pre ++ (kw ++ post)).reverse
      = post.reverse ++ (kw.reverse ++ pre.reverse) := by
    simp
  have hkrne : kw.reverse ≠ [] := by simpa using hne
  obtain ⟨klast, krtl, hkr⟩ := List.exists_cons_of_ne_nil hkrne
  have hklast_mem : klast ∈ kw := by
    have hm : klast ∈ kw.reverse := by rw [hkr]; simp
    simpa using hm
  have hklast : isPySpace klast = false :=
    isPySpace_eq_false_of_isWordChar (hkw _ hklast_mem)
  rw [hrev, List.dropWhile_append]
  by_cases he : (post.reverse.dropWhile isPySpace).isEmpty
  · rw [if_pos he, hkr, List.cons_append, List.dropWhile_cons_of_neg (by simp [hklast])]
    refine ⟨pre, [], ?_, h1, rfl⟩
    rw [← List.cons_append, ← hkr]
    simp
  · rw [if_neg he]
    have hdne : post.reverse.dropWhile isPySpace ≠ [] := by
      simpa using he
    refine ⟨pre, (post.reverse.dropWhile isPySpace).reverse, by simp, h1, ?_⟩
    have hpfx : (post.reverse.dropWhile isPySpace).reverse <+: post := by
      have hp := List.reverse_prefix.mpr (List.dropWhile_suffix (l := post.reverse) isPySpace)
      simpa using hp
    obtain ⟨t, ht⟩ := hpfx
    have hne' : (post.reverse.dropWhile isPySpace).reverse ≠ [] := by
      simpa using hdne
    rw [← ht, List.head?_append_of_ne_nil _ hne'] at h2
    exact h2

/-- A whole-word occurrence survives Python's `str.strip()`. -/
theorem containsWholeWord_pyStrip (l kw : List Char)
    (hkw : ∀ c ∈ kw, isWordChar c = true) (hne : kw ≠ [])
    (h : containsWholeWord l kw = true) :
    containsWholeWord (pyStrip l) kw = true :=
  containsWholeWord_rstrip _ _ hkw hne (containsWholeWord_dropWhile _ _ hkw hne h)

/-- A whole-word occurrence of an uppercase keyword survives `str.upper()`. -/
theorem containsWholeWord_pyUpper (l kw : List Char)
    (hkw : kw.map asciiUpper = kw) (h : containsWholeWord l kw = true) :
    containsWholeWord (pyUpper l) kw = true := by
  rw [containsWholeWord_iff] at h ⊢
  obtain ⟨pre, post, rfl, h1, h2⟩ := h
  refine ⟨pre.map asciiUpper, post.map asciiUpper, ?_, ?_, ?_⟩
  · simp [pyUpper, hkw]
  · rw [List.getLast?_map, boundary_map_asciiUpper]
    exact h1
  · rw [List.head?_map, boundary_map_asciiUpper]
    exact h2

/-- A whole-word occurrence inside a single-quoted region is a whole-word
occurrence of the enclosing string: the quote characters are not word
characters, so they provide the needed boundaries. -/
theorem containsWholeWord_quoted (a b inner kw : List Char)
    (h : containsWholeWord inner kw = true) :
    containsWholeWord (a ++ ('\'' :: (inner ++ ('\'' :: b)))) kw = true := by
  rw [containsWholeWord_iff] at h ⊢
  obtain ⟨x, y, rfl, h1, h2⟩ := h
  refine ⟨a ++ ('\'' :: x), y ++ ('\'' :: b), by simp, ?_, ?_⟩
  · cases hx : x with
    | nil =>
      rw [List.getLast?_concat]
      rfl
    | cons c cs =>
      have hsplit : a ++ ('\'' :: (c :: cs)) = (a ++ ['\'']) ++ (c :: cs) := by simp
      rw [hsplit, List.getLast?_append_of_ne_nil _ (by simp)]
      rw [hx] at h1
      exact h1
  · cases hy : y with
    | nil => rfl
    | cons c cs =>
      rw [List.head?_append_of_ne_nil _ (by simp)]
      rw [hy] at h2
      exact h2


end PyStr


namespace PyStr

/-- The 26 ASCII uppercase letters. -/
def uppercaseChars : List Char :=
  ['A','B','C','D','E','F','G','H','I','J','K','L','M',
   'N','O','P','Q','R','S','T','U','V','W','X','Y','Z']

theorem isUpper_bounds (c : Char) (h : c.isUpper = true) :
    65 ≤ c.toNat ∧ c.toNat ≤ 90 := by
  simp only [Char.isUpper, Bool.and_eq_true, decide_eq_true_eq] at h
  obtain ⟨h1, h2⟩ := h
  constructor
  · simpa [UInt32.le_def, BitVec.le_def, Char.toNat, UInt32.toNat] using h1
  · simpa [UInt32.le_def, BitVec.le_def, Char.toNat, UInt32.toNat] using h2

theorem isUpper_mem (c : Char) (h : c.isUpper = true) : c ∈ uppercaseChars := by
  obtain ⟨ha, hb⟩ := isUpper_bounds c h
  have hc : c = Char.ofNat c.toNat := (Char.ofNat_toNat c).symm
  have hcases : c.toNat = 65 ∨ c.toNat = 66 ∨ c.toNat = 67 ∨ c.toNat = 68 ∨
      c.toNat = 69 ∨ c.toNat = 70 ∨ c.toNat = 71 ∨ c.toNat = 72 ∨ c.toNat = 73 ∨
      c.toNat = 74 ∨ c.toNat = 75 ∨ c.toNat = 76 ∨ c.toNat = 77 ∨ c.toNat = 78 ∨
      c.toNat = 79 ∨ c.toNat = 80 ∨ c.toNat = 81 ∨ c.toNat = 82 ∨ c.toNat = 83 ∨
      c.toNat = 84 ∨ c.toNat = 85 ∨ c.toNat = 86 ∨ c.toNat = 87 ∨ c.toNat = 88 ∨
      c.toNat = 89 ∨ c.toNat = 90 := by omega
  rcases hcases with h'|h'|h'|h'|h'|h'|h'|h'|h'|h'|h'|h'|h'|h'|h'|h'|h'|h'|h'|h'|h'|h'|h'|h'|h'|h' <;>
    (rw [hc, h']; decide)

theorem asciiLower_of_not_isUpper {c : Char} (hu : c.isUpper = false) :
    asciiLower c = c := by
  unfold asciiLower
  split <;> first | rfl | (exfalso; simp_all)

theorem asciiLower_isUpper (c : Char) : (asciiLower c).isUpper = false := by
  by_cases hu : c.isUpper = true
  · have hm := isUpper_mem c hu
    fin_cases hm <;> decide
  · have hu' : c.isUpper = false := by
      cases hx : c.isUpper with
      | false => rfl
      | true => exact absurd hx hu
    rw [asciiLower_of_not_isUpper hu']
    exact hu'

theorem isWordChar_asciiLower (c : Char) : isWordChar (asciiLower c) = isWordChar c := by
  unfold asciiLower
  split <;> rfl

theorem lower_digit_underscore_of {d : Char} (hw : isWordChar d = true)
    (hu : d.isUpper = false) :
    (d.isLower || (d.isDigit || (d == '_'))) = true := by
  simp only [isWordChar, Char.isAlphanum, Char.isAlpha, hu, Bool.false_or,
    Bool.or_eq_true] at hw
  rcases hw with (h | h) | h <;> simp [h]

theorem wordChar_lower {c : Char} (h : isWordChar c = true) :
    ((asciiLower c).isLower || ((asciiLower c).isDigit || (asciiLower c == '_'))) = true :=
  lower_digit_underscore_of (by rw [isWordChar_asciiLower]; exact h) (asciiLower_isUpper c)

end PyStr

namespace SQLValidator

open PyStr

/-- Every deny-listed keyword is a nonempty word of uppercase letters. -/
theorem keyword_props : ∀ kw ∈ DANGEROUS_KEYWORDS,
    kw.data.map asciiUpper = kw.data ∧ (∀ c ∈ kw.data, isWordChar c = true) ∧
    kw.data ≠ [] ∧ kw ≠ "" := by decide

/-- If a deny-listed keyword occurs as a whole word in the raw query,
`validate` rejects. -/
theorem validate_false_of_keyword (s kw : String)
    (hmem : kw ∈ DANGEROUS_KEYWORDS)
    (h : containsWholeWord s.data kw.data = true) :
    (validate s).1 = false := by
  obtain ⟨hupper, hword, hne, -⟩ := keyword_props kw hmem
  have hnorm : containsWholeWord (normalizedQuery s) kw.data = true := by
    unfold normalizedQuery
    exact containsWholeWord_pyUpper _ _ hupper
      (containsWholeWord_pyStrip _ _ hword hne h)
  have hdang : containsDangerousKeywords (normalizedQuery s) ≠ "" := by
    unfold containsDangerousKeywords
    cases hf : DANGEROUS_KEYWORDS.find?
        (fun k => containsWholeWord (normalizedQuery s) k.data) with
    | none =>
      rw [List.find?_eq_none] at hf
      exact absurd hnorm (by simpa using hf kw hmem)
    | some k =>
      obtain ⟨-, -, -, hkne⟩ := keyword_props k (List.mem_of_find?_eq_some hf)
      simpa using hkne
  unfold validate
  repeat' split
  any_goals rfl

/-- If the normalized query does not begin with `SELECT` after leading
comments are removed, `validate` rejects. -/
theorem validate_false_of_not_select (s : String)
    (h : startsWithSelect (normalizedQuery s) = false) :
    (validate s).1 = false := by
  unfold validate
  repeat' split
  any_goals rfl
  all_goals simp_all

end SQLValidator

/-- C1: for every input string to the SQL Safety Gate: a string containing a
deny-listed keyword as a whole word is rejected; a string whose normalized
form (strip + uppercase) does not begin with `SELECT` after leading line
comments are removed is rejected; `validate "SELECT 1;"` accepts; and
`validate "SELECT 1; DROP TABLE x;"` rejects. -/
theorem C1_validator_safety_gate :
    (∀ (s kw : String), kw ∈ SQLValidator.DANGEROUS_KEYWORDS →
      PyStr.containsWholeWord s.data kw.data = true →
      (SQLValidator.validate s).1 = false) ∧
    (∀ s : String,
      SQLValidator.startsWithSelect (SQLValidator.normalizedQuery s) = false →
      (SQLValidator.validate s).1 = false) ∧
    SQLValidator.validate "SELECT 1;" = (true, "") ∧
    (SQLValidator.validate "SELECT 1; DROP TABLE x;").1 = false :=
  ⟨fun s kw hmem h => SQLValidator.validate_false_of_keyword s kw hmem h,
   fun s h => SQLValidator.validate_false_of_not_select s h,
   by decide, by decide⟩

/-- Witness for C1 at concrete inputs: `"ha DROP ha"` contains `DROP` as a
whole word and is rejected; `"UPDATE t SET x = 1"` does not begin with
`SELECT` and is rejected. -/
theorem C1_validator_safety_gate_witness :
    (SQLValidator.validate "ha DROP ha").1 = false ∧
    (SQLValidator.validate "UPDATE t SET x = 1").1 = false :=
  ⟨C1_validator_safety_gate.1 "ha DROP ha" "DROP" (by decide) (by decide),
   C1_validator_safety_gate.2.1 "UPDATE t SET x = 1" (by decide)⟩

/-- C10: the deny-list check runs on the raw normalized query, before string
literals are removed (literals are only stripped later, for the multiple
statement check), so a deny-listed keyword occurring as a whole word inside
a single-quoted string literal is rejected even though it is only data; in
particular `validate "SELECT * FROM t WHERE note = 'please DROP me'"`
rejects. -/
theorem C10_keyword_inside_string_literal :
    (∀ (pre inner post kw : String), kw ∈ SQLValidator.DANGEROUS_KEYWORDS →
      PyStr.containsWholeWord inner.data kw.data = true →
      (SQLValidator.validate (pre ++ "'" ++ inner ++ "'" ++ post)).1 = false) ∧
    (SQLValidator.validate "SELECT * FROM t WHERE note = 'please DROP me'").1
      = false := by
  constructor
  · intro pre inner post kw hmem h
    apply SQLValidator.validate_false_of_keyword _ kw hmem
    have hdata : (pre ++ "'" ++ inner ++ "'" ++ post).data
        = pre.data ++ ('\'' :: (inner.data ++ ('\'' :: post.data))) := by
      simp [String.data_append]
    rw [hdata]
    exact PyStr.containsWholeWord_quoted _ _ _ _ h
  · decide

/-- Witness for C10 at a concrete input: `DELETE` inside a quoted literal
still causes rejection. -/
theorem C10_keyword_inside_string_literal_witness :
    (SQLValidator.validate
      ("SELECT x FROM t WHERE c = " ++ "'" ++ "a DELETE b" ++ "'" ++ " ")).1
      = false :=
  C10_keyword_inside_string_literal.1 "SELECT x FROM t WHERE c = " "a DELETE b"
    " " "DELETE" (by decide) (by decide)

namespace PyStr

theorem isLower_bounds (c : Char) (h : c.isLower = true) :
    97 ≤ c.toNat ∧ c.toNat ≤ 122 := by
  simp only [Char.isLower, Bool.and_eq_true, decide_eq_true_eq] at h
  obtain ⟨h1, h2⟩ := h
  constructor
  · simpa [UInt32.le_def, BitVec.le_def, Char.toNat, UInt32.toNat] using h1
  · simpa [UInt32.le_def, BitVec.le_def, Char.toNat, UInt32.toNat] using h2

theorem isDigit_bounds (c : Char) (h : c.isDigit = true) :
    48 ≤ c.toNat ∧ c.toNat ≤ 57 := by
  simp only [Char.isDigit, Bool.and_eq_true, decide_eq_true_eq] at h
  obtain ⟨h1, h2⟩ := h
  constructor
  · simpa [UInt32.le_def, BitVec.le_def, Char.toNat, UInt32.toNat] using h1
  · simpa [UInt32.le_def, BitVec.le_def, Char.toNat, UInt32.toNat] using h2

/-- Digits are not letters. -/
theorem isAlpha_eq_false_of_isDigit {c : Char} (h : c.isDigit = true) :
    c.isAlpha = false := by
  cases ha : c.isAlpha with
  | false => rfl
  | true =>
    exfalso
    obtain ⟨h1, h2⟩ := isDigit_bounds c h
    simp only [Char.isAlpha, Bool.or_eq_true] at ha
    rcases ha with hu | hl
    · obtain ⟨h3, h4⟩ := isUpper_bounds c hu
      omega
    · obtain ⟨h3, h4⟩ := isLower_bounds c hl
      omega

/-- A letter among `[a-z0-9_]` is a lowercase letter. -/
theorem isLower_of_isAlpha_of_ldu {d : Char}
    (ht : (d.isLower || (d.isDigit || (d == '_'))) = true)
    (ha : d.isAlpha = true) : d.isLower = true := by
  simp only [Bool.or_eq_true, beq_iff_eq] at ht
  rcases ht with h | h | h
  · exact h
  · rw [isAlpha_eq_false_of_isDigit h] at ha
    exact absurd ha (by simp)
  · subst h
    exact absurd ha (by decide)

end PyStr

namespace DataIngestor

open PyStr

/-- Collapsing underscore runs introduces no new characters. -/
theorem mem_of_mem_collapseAux :
    ∀ (l : List Char) (b : Bool) (x : Char),
      x ∈ collapseUnderscoresAux l b → x ∈ l := by
  intro l
  induction l with
  | nil =>
    intro b x h
    simp [collapseUnderscoresAux] at h
  | cons c rest ih =>
    intro b x h
    unfold collapseUnderscoresAux at h
    by_cases hc : c = '_'
    · rw [if_pos hc] at h
      cases b with
      | true => exact List.mem_cons_of_mem c (ih true x h)
      | false =>
        rcases List.mem_cons.mp h with rfl | h'
        · rw [hc]
          exact List.mem_cons_self _ _
        · exact List.mem_cons_of_mem c (ih true x h')
    · rw [if_neg hc] at h
      rcases List.mem_cons.mp h with rfl | h'
      · exact List.mem_cons_self _ _
      · exact List.mem_cons_of_mem c (ih false x h')

/-- Every character produced by the shared sanitization chain is a lowercase
letter, a digit, or an underscore. -/
theorem sanitizeCore_chars (s : String) :
    ∀ d ∈ sanitizeCore s, (d.isLower || (d.isDigit || (d == '_'))) = true := by
  intro d hd
  unfold sanitizeCore pyLower at hd
  rw [List.mem_map] at hd
  obtain ⟨e, he, rfl⟩ := hd
  have he2 : e ∈ (pyStrip s.data).map fun c => if isWordChar c then c else '_' :=
    mem_of_mem_collapseAux _ _ _ he
  rw [List.mem_map] at he2
  obtain ⟨c, -, rfl⟩ := he2
  have hw : isWordChar (if isWordChar c then c else '_') = true := by
    by_cases hwc : isWordChar c = true
    · rw [if_pos hwc]
      exact hwc
    · rw [if_neg hwc]
      decide
  exact wordChar_lower hw

theorem data_mk (l : List Char) : (String.mk l).data = l := rfl

theorem digitGuard_cons (c0 : Char) (ctl : List Char) :
    digitGuard (c0 :: ctl)
      = if c0.isDigit then "col_".data ++ (c0 :: ctl) else c0 :: ctl := rfl

theorem alphaGuard_cons (c0 : Char) (ctl : List Char) :
    alphaGuard (c0 :: ctl)
      = if !c0.isAlpha then "table_".data ++ (c0 :: ctl) else c0 :: ctl := rfl

theorem mem_digitGuard {d : Char} {l : List Char} (hd : d ∈ digitGuard l) :
    d ∈ "col_".data ∨ d ∈ l := by
  cases l with
  | nil => simp [digitGuard] at hd
  | cons c0 ctl =>
    rw [digitGuard_cons] at hd
    by_cases hdig : c0.isDigit = true
    · rw [if_pos hdig] at hd
      exact List.mem_append.mp hd
    · rw [if_neg hdig] at hd
      exact Or.inr hd

/-- A nonempty lowercase-started word of `[a-z0-9_]` characters, truncated to
63 characters, matches the identifier pattern. -/
theorem matchesIdentifierPattern_cons (c0 : Char) (ctl : List Char)
    (h0 : c0.isLower = true)
    (hall : ∀ d ∈ ctl, (d.isLower || (d.isDigit || (d == '_'))) = true) :
    matchesIdentifierPattern (String.mk ((c0 :: ctl).take 63)) = true := by
  rw [List.take_succ_cons]
  simp only [matchesIdentifierPattern, data_mk]
  rw [Bool.and_eq_true, Bool.and_eq_true]
  refine ⟨⟨h0, ?_⟩, ?_⟩
  · rw [List.all_eq_true]
    intro d hd
    have h' := hall d (List.take_subset _ _ hd)
    simp only [Bool.or_eq_true, beq_iff_eq] at h' ⊢
    tauto
  · simp only [List.length_cons, List.length_take, decide_eq_true_eq]
    omega

theorem sanitize_column_name_spec (s : String) :
    (sanitize_column_name s).data ≠ [] ∧
    (sanitize_column_name s).data.length ≤ 63 ∧
    ∀ d ∈ (sanitize_column_name s).data,
      (d.isLower || (d.isDigit || (d == '_'))) = true := by
  unfold sanitize_column_name
  split
  · exact ⟨by decide, by decide, by decide⟩
  · set L := (if (digitGuard (sanitizeCore s)).isEmpty then "unnamed_column".data
      else digitGuard (sanitizeCore s)) with hL
    have hchars : ∀ d ∈ L, (d.isLower || (d.isDigit || (d == '_'))) = true := by
      intro d hd
      rw [hL] at hd
      split at hd
      · fin_cases hd <;> decide
      · rcases mem_digitGuard hd with hcol | hcontent
        · fin_cases hcol <;> decide
        · exact sanitizeCore_chars s d hcontent
    have hne : L ≠ [] := by
      rw [hL]
      split
      · decide
      · rename_i hni
        simpa using hni
    have hlenpos : 0 < L.length := List.length_pos.mpr hne
    refine ⟨?_, ?_, ?_⟩
    · show L.take 63 ≠ []
      have hlt : (L.take 63).length ≠ 0 := by
        rw [List.length_take]
        omega
      intro hnil
      exact hlt (by rw [hnil]; rfl)
    · show (L.take 63).length ≤ 63
      rw [List.length_take]
      omega
    · intro d hd
      exact hchars d (List.take_subset _ _ hd)

theorem sanitize_table_name_spec (s : String) :
    matchesIdentifierPattern (sanitize_table_name s) = true := by
  unfold sanitize_table_name
  split
  · decide
  · rcases hcore : sanitizeCore s with - | ⟨c0, ctl⟩
    · decide
    · have hc0 : (c0.isLower || (c0.isDigit || (c0 == '_'))) = true :=
        sanitizeCore_chars s c0 (hcore ▸ List.mem_cons_self _ _)
      have htl : ∀ d ∈ ctl, (d.isLower || (d.isDigit || (d == '_'))) = true :=
        fun d hd => sanitizeCore_chars s d (hcore ▸ List.mem_cons_of_mem _ hd)
      by_cases halpha : c0.isAlpha = true
      · -- first character is a letter, hence lowercase: the name is kept
        have hag : alphaGuard (c0 :: ctl) = c0 :: ctl := by
          rw [alphaGuard_cons, if_neg (by simp [halpha])]
        rw [hag, if_neg (by simp)]
        exact matchesIdentifierPattern_cons c0 ctl
          (isLower_of_isAlpha_of_ldu hc0 halpha) htl
      · -- first character is not a letter: `table_` is prepended
        have ha' : c0.isAlpha = false := by
          cases hax : c0.isAlpha with
          | false => rfl
          | true => exact absurd hax halpha
        have hag : alphaGuard (c0 :: ctl)
            = 't' :: ("able_".data ++ (c0 :: ctl)) := by
          rw [alphaGuard_cons, if_pos (by rw [ha']; rfl),
            show "table_".data = 't' :: "able_".data by decide, List.cons_append]
        rw [hag, if_neg (by simp)]
        apply matchesIdentifierPattern_cons
        · decide
        · intro d hd
          rcases List.mem_append.mp hd with hpre | hcontent
          · fin_cases hpre <;> decide
          · rcases List.mem_cons.mp hcontent with rfl | hmem
            · exact hc0
            · exact htl d hmem

end DataIngestor

namespace ProjectManager

open PyStr

theorem sanitize_name_spec (s : String) :
    (sanitize_name s).data ≠ [] ∧
    ∀ d ∈ (sanitize_name s).data, isWordChar d = true := by
  unfold sanitize_name
  split
  · exact ⟨by decide, by decide⟩
  · split
    · exact ⟨by decide, by decide⟩
    · rename_i hni
      refine ⟨by simpa using hni, ?_⟩
      intro d hd
      exact List.of_mem_filter hd

end ProjectManager

/-- C2 fails as stated: `ProjectManager.sanitize_name` returns `"123"` on
input `"123"` — an identifier that starts with a digit and so violates
`^[a-z][a-z0-9_]*$` — and `DataIngestor.sanitize_column_name` returns `"_"`
on input `"_"`; neither function contains any raise, so no validation error
is possible. -/
theorem C2_sanitizer_counterexample :
    ProjectManager.sanitize_name "123" = "123" ∧
    DataIngestor.matchesIdentifierPattern "123" = false ∧
    DataIngestor.sanitize_column_name "_" = "_" ∧
    DataIngestor.matchesIdentifierPattern "_" = false := by
  refine ⟨by decide, by decide, by decide, by decide⟩

/-- C2 (amended): identifier sanitization is total and never raises (none
of the three sanitizers contains a raise).  For inputs over the
`isModelledAscii` characters — the domain on which this embedding agrees
exactly with Python's Unicode `\w`/`isalpha`/`strip`, and outside of which
the source lets non-ASCII word characters such as `'é'` pass through
unsanitized — `sanitize_table_name` returns a string matching
`^[a-z][a-z0-9_]*$` of length at most 63; `sanitize_column_name` returns a
nonempty string of length at most 63 over `[a-z0-9_]`, but it may start
with an underscore; and `sanitize_name` returns a nonempty string of word
characters, but it may start with a digit or an underscore and is not
truncated to 63 characters. -/
theorem C2_sanitizers_amended :
    (∀ s : String, (∀ c ∈ s.data, PyStr.isModelledAscii c = true) →
      DataIngestor.matchesIdentifierPattern (DataIngestor.sanitize_table_name s)
        = true) ∧
    (∀ s : String, (∀ c ∈ s.data, PyStr.isModelledAscii c = true) →
      (DataIngestor.sanitize_column_name s).data ≠ [] ∧
      (DataIngestor.sanitize_column_name s).data.length ≤ 63 ∧
      ∀ d ∈ (DataIngestor.sanitize_column_name s).data,
        (d.isLower || (d.isDigit || (d == '_'))) = true) ∧
    (∀ s : String, (∀ c ∈ s.data, PyStr.isModelledAscii c = true) →
      (ProjectManager.sanitize_name s).data ≠ [] ∧
      ∀ d ∈ (ProjectManager.sanitize_name s).data, PyStr.isWordChar d = true) :=
  ⟨fun s _ => DataIngestor.sanitize_table_name_spec s,
   fun s _ => DataIngestor.sanitize_column_name_spec s,
   fun s _ => ProjectManager.sanitize_name_spec s⟩

/-- Witness for C2 (amended) at concrete ASCII inputs. -/
theorem C2_sanitizers_amended_witness :
    DataIngestor.matchesIdentifierPattern
      (DataIngestor.sanitize_table_name "9 Data!") = true ∧
    ('m'.isLower || ('m'.isDigit || ('m' == '_'))) = true ∧
    PyStr.isWordChar 'm' = true :=
  ⟨C2_sanitizers_amended.1 "9 Data!" (by decide),
   (C2_sanitizers_amended.2.1 "My Col" (by decide)).2.2 'm' (by decide),
   (C2_sanitizers_amended.2.2 "My Col" (by decide)).2 'm' (by decide)⟩

/-- C3: every run of `process_user_question` makes at most 2 SQL-generation
calls and at most 2 SQL-execution calls before reaching its terminal state:
the initial attempt plus at most one zero-result retry, never a third. -/
theorem C3_at_most_two_generation_and_execution_calls :
    ∀ env : App.PipelineEnv,
      (App.process_user_question env).genCalls ≤ 2 ∧
      (App.process_user_question env).execCalls ≤ 2 := by
  intro env
  unfold App.process_user_question App.genAfterExec App.execsTotal
  repeat' split
  all_goals exact ⟨by decide, by decide⟩

/-- C4: every run of `process_user_question` that ends in one of the five
stored terminal branches (general chat, validation failure, execution
failure, empty-result retry merged into the answered branch, or success)
appends exactly one user turn followed by one assistant turn to the durable
chat history.  Runs ending in the outer exception handler (`aborted`) are
the only ones excluded. -/
theorem C4_history_gets_one_user_and_one_assistant_turn :
    ∀ env : App.PipelineEnv,
      (App.process_user_question env).terminal ≠ App.Terminal.aborted →
      (App.process_user_question env).inserted
        = [App.Role.user, App.Role.assistant] := by
  intro env
  unfold App.process_user_question
  repeat' split
  all_goals simp

/-- Witness for C4: a fully successful run (including a zero-result retry)
stores exactly the two turns. -/
theorem C4_history_gets_one_user_and_one_assistant_turn_witness :
    (App.process_user_question
      { setupRaises := false, intentGeneral := false, textToSqlRaises := false,
        valid1 := true, exec1 := { success := true, rowCount := 0 },
        retryGenRaises := false, valid2 := true,
        exec2 := { success := true, rowCount := 4 },
        resultToEnglishRaises := false }).inserted
      = [App.Role.user, App.Role.assistant] :=
  C4_history_gets_one_user_and_one_assistant_turn _ (by decide)

/-- C5: for a text column of a non-excluded table over a consistent
database, the enrichment is a per-value list exactly when the distinct
non-null value count lies in `(0, ceiling]`, and that list is exactly the
distinct values; above the ceiling only a cardinality note is emitted. -/
theorem C5_value_enrichment :
    ∀ (maxu : Nat) (vals : List String),
      (∀ vs, SchemaExtractor.enrichColumn maxu false true vals
          = SchemaExtractor.Enrichment.possibleValues vs ↔
        (0 < vals.length ∧ vals.length ≤ maxu ∧ vs = vals)) ∧
      (maxu < vals.length →
        SchemaExtractor.enrichColumn maxu false true vals
          = SchemaExtractor.Enrichment.highCardinality vals.length) := by
  intro maxu vals
  constructor
  · intro vs
    constructor
    · intro h
      unfold SchemaExtractor.enrichColumn at h
      rw [if_pos (show (!false && true) = true from rfl)] at h
      split at h
      · rename_i h1
        split at h
        · have htake : vals.take (maxu + 1) = vals :=
            List.take_of_length_le (by omega)
          rw [htake, List.take_of_length_le h1.2] at h
          injection h with hv
          exact ⟨h1.1, h1.2, hv.symm⟩
        · simp at h
      · split at h
        · simp at h
        · simp at h
    · rintro ⟨h1, h2, rfl⟩
      unfold SchemaExtractor.enrichColumn
      rw [if_pos (show (!false && true) = true from rfl), if_pos ⟨h1, h2⟩]
      have htake : vs.take (maxu + 1) = vs :=
        List.take_of_length_le (by omega)
      rw [htake, if_pos h2, List.take_of_length_le h2]
  · intro hgt
    unfold SchemaExtractor.enrichColumn
    rw [if_pos (show (!false && true) = true from rfl), if_neg (by omega),
      if_pos (by omega)]

/-- Witness for C5: with ceiling 2, three distinct values yield only a
cardinality note, while one distinct value yields exactly that value. -/
theorem C5_value_enrichment_witness :
    SchemaExtractor.enrichColumn 2 false true ["a", "b", "c"]
      = SchemaExtractor.Enrichment.highCardinality 3 ∧
    SchemaExtractor.enrichColumn 2 false true ["a"]
      = SchemaExtractor.Enrichment.possibleValues ["a"] :=
  ⟨(C5_value_enrichment 2 ["a", "b", "c"]).2 (by decide),
   ((C5_value_enrichment 2 ["a"]).1 ["a"]).mpr ⟨by decide, by decide, rfl⟩⟩

/-- C6 (code bug): when the backend raises during execution,
`SQLExecutor.execute` does return `success = false` with an error message
instead of raising — but its `except` branches return directly, with no
`finally`: the pooled connection is never released and no rollback is
issued, contradicting the claimed guaranteed release on all exit paths.
Only the success path releases the connection. -/
theorem C6_executor_leaks_connection_on_error :
    SQLExecutor.execute (SQLExecutor.ExecEvent.dbError "relation t does not exist")
      = { acquired := 1, released := 0, rolledBack := false, success := false,
          results := none, columnNames := none,
          error := "Database error: relation t does not exist" } ∧
    (SQLExecutor.execute (SQLExecutor.ExecEvent.ok [] [])).released = 1 ∧
    (SQLExecutor.execute (SQLExecutor.ExecEvent.otherError "boom")).released = 0 :=
  ⟨rfl, rfl, rfl⟩

/-- Unfolding of `classify_intent` on a returned model output. -/
theorem classify_intent_some_eq (s : String) :
    GroqLLMClient.classify_intent (some s)
      = (if PyStr.isSubstring "NEEDS_DATABASE".data
            (PyStr.pyUpper (PyStr.pyStrip s.data)) = true then "NEEDS_DATABASE"
         else if PyStr.isSubstring "GENERAL_CHAT".data
            (PyStr.pyUpper (PyStr.pyStrip s.data)) = true then "GENERAL_CHAT"
         else "NEEDS_DATABASE") := rfl

/-- C7: intent classification always returns one of the two markers; the
API-failure path, any output containing `NEEDS_DATABASE`, and any output
containing neither marker all yield `NEEDS_DATABASE` — never
`GENERAL_CHAT`. -/
theorem C7_intent_classification_closed_and_biased :
    (∀ r : Option String, GroqLLMClient.classify_intent r = "NEEDS_DATABASE" ∨
      GroqLLMClient.classify_intent r = "GENERAL_CHAT") ∧
    GroqLLMClient.classify_intent none = "NEEDS_DATABASE" ∧
    (∀ s : String,
      PyStr.isSubstring "GENERAL_CHAT".data (PyStr.pyUpper (PyStr.pyStrip s.data))
          = false →
      GroqLLMClient.classify_intent (some s) = "NEEDS_DATABASE") ∧
    (∀ s : String,
      PyStr.isSubstring "NEEDS_DATABASE".data (PyStr.pyUpper (PyStr.pyStrip s.data))
          = true →
      GroqLLMClient.classify_intent (some s) = "NEEDS_DATABASE") := by
  refine ⟨?_, rfl, ?_, ?_⟩
  · intro r
    cases r with
    | none => exact Or.inl rfl
    | some s =>
      unfold GroqLLMClient.classify_intent
      repeat' split
      all_goals first | exact Or.inl rfl | exact Or.inr rfl
  · intro s h
    rw [classify_intent_some_eq]
    by_cases hnd : PyStr.isSubstring "NEEDS_DATABASE".data
        (PyStr.pyUpper (PyStr.pyStrip s.data)) = true
    · rw [if_pos hnd]
    · rw [if_neg hnd, if_neg (by rw [h]; simp)]
  · intro s h
    rw [classify_intent_some_eq, if_pos h]

/-- Witness for C7 at concrete model outputs: an output with neither marker
and an output containing both markers each classify as `NEEDS_DATABASE`. -/
theorem C7_intent_classification_closed_and_biased_witness :
    GroqLLMClient.classify_intent (some "banana") = "NEEDS_DATABASE" ∧
    GroqLLMClient.classify_intent (some "NEEDS_DATABASE or GENERAL_CHAT")
      = "NEEDS_DATABASE" :=
  ⟨C7_intent_classification_closed_and_biased.2.2.1 "banana" (by decide),
   C7_intent_classification_closed_and_biased.2.2.2 "NEEDS_DATABASE or GENERAL_CHAT"
     (by decide)⟩

/-- C8 fails as stated: `delete_project "public"` does not raise — the guard
`ValueError` raised inside the `try` body is swallowed by the method's own
`except Exception` handler, which returns `False`; the caller observes a
normal `False` return (`Except.ok false`) and no drop is performed. -/
theorem C8_delete_refusal_counterexample :
    ProjectManager.delete_project true "public" = (Except.ok false, false) ∧
    (ProjectManager.delete_project_body true "public").result
      = Except.error "Cannot delete schema 'public'. Must start with 'proj_'." :=
  ⟨rfl, rfl⟩

/-- C8 (amended): for every namespace id lacking the tenant prefix or on the
deny-list, `delete_project` refuses — no drop is performed — but the refusal
surfaces as a `False` return, not as an exception (the guard `ValueError` is
swallowed by the method's own handler); `delete_project` never lets an
exception escape, and a drop happens only for a prefixed, non-deny-listed,
existing namespace. -/
theorem C8_delete_guard_amended :
    ∀ (ex : Bool) (s : String),
      ((ProjectManager.schema_prefix_str.data.isPrefixOf s.data = false ∨
          s ∈ ProjectManager.protected_schemas) →
        ProjectManager.delete_project ex s = (Except.ok false, false)) ∧
      (∀ e : String, (ProjectManager.delete_project ex s).1 ≠ Except.error e) ∧
      ((ProjectManager.delete_project ex s).2 = true →
        ProjectManager.schema_prefix_str.data.isPrefixOf s.data = true ∧
        s ∉ ProjectManager.protected_schemas ∧ ex = true) := by
  intro ex s
  refine ⟨?_, ?_, ?_⟩
  · intro hcase
    have hbody : (∃ e, (ProjectManager.delete_project_body ex s).result
          = Except.error e) ∧
        (ProjectManager.delete_project_body ex s).dropped = false := by
      unfold ProjectManager.delete_project_body
      rcases hcase with hnp | hprot
      · rw [if_pos (by rw [hnp]; rfl)]
        exact ⟨⟨_, rfl⟩, rfl⟩
      · by_cases hpre : ProjectManager.schema_prefix_str.data.isPrefixOf s.data = true
        · rw [if_neg (by rw [hpre]; simp), if_pos hprot]
          exact ⟨⟨_, rfl⟩, rfl⟩
        · have hpre' : ProjectManager.schema_prefix_str.data.isPrefixOf s.data
              = false := by
            cases hx : ProjectManager.schema_prefix_str.data.isPrefixOf s.data with
            | false => rfl
            | true => exact absurd hx hpre
          rw [if_pos (by rw [hpre']; rfl)]
          exact ⟨⟨_, rfl⟩, rfl⟩
    obtain ⟨⟨e, he⟩, hd⟩ := hbody
    unfold ProjectManager.delete_project
    rw [he]
    show ((Except.ok false : Except String Bool),
      (ProjectManager.delete_project_body ex s).dropped) = (Except.ok false, false)
    rw [hd]
  · intro e
    unfold ProjectManager.delete_project
    cases hr : (ProjectManager.delete_project_body ex s).result with
    | ok b => simp
    | error e' => simp
  · intro hdrop
    have hb : (ProjectManager.delete_project_body ex s).dropped = true →
        ProjectManager.schema_prefix_str.data.isPrefixOf s.data = true ∧
        s ∉ ProjectManager.protected_schemas ∧ ex = true := by
      unfold ProjectManager.delete_project_body
      repeat' split
      all_goals simp_all
    have hd : (ProjectManager.delete_project ex s).2
        = (ProjectManager.delete_project_body ex s).dropped := by
      unfold ProjectManager.delete_project
      cases hr : (ProjectManager.delete_project_body ex s).result <;> simp
    exact hb (by rw [← hd]; exact hdrop)

/-- Witness for C8 (amended) at concrete inputs: a deny-listed name and an
unprefixed name are refused without an exception, and a prefixed existing
namespace is the only shape that gets dropped. -/
theorem C8_delete_guard_amended_witness :
    ProjectManager.delete_project true "pg_catalog" = (Except.ok false, false) ∧
    ProjectManager.delete_project true "users" = (Except.ok false, false) ∧
    (ProjectManager.delete_project false "proj_u_p").1 ≠ Except.error "boom" ∧
    (ProjectManager.schema_prefix_str.data.isPrefixOf "proj_u_p".data = true ∧
      "proj_u_p" ∉ ProjectManager.protected_schemas ∧ true = true) :=
  ⟨(C8_delete_guard_amended true "pg_catalog").1 (Or.inl (by decide)),
   (C8_delete_guard_amended true "users").1 (Or.inl (by decide)),
   (C8_delete_guard_amended false "proj_u_p").2.1 "boom",
   (C8_delete_guard_amended true "proj_u_p").2.2 (by decide)⟩

/-- C9 fails on whitespace-only input: every part of the split strips to
empty, so the fallback returns the stripped raw input — the empty string —
which lacks a trailing `?` and gets none appended. -/
theorem C9_split_questions_counterexample :
    App.split_questions " " = [""] ∧ App.endsWithQM "".data = false :=
  ⟨by decide, by decide⟩

/-- C9 (amended): the two concrete examples hold, and every fragment that
the split loop keeps (a nonempty stripped part) ends with `?` — one is
appended when lacking; but when no nonempty part survives, the fallback
returns the stripped raw input unchanged, which may lack a trailing `?`. -/
theorem C9_split_questions_amended :
    App.split_questions "What is X? What is Y"
      = ["What is X?", "What is Y?"] ∧
    App.split_questions "no question mark here"
      = ["no question mark here?"] ∧
    (∀ (input q : String), q ∈ App.questionsOf input →
      App.endsWithQM q.data = true) ∧
    (∀ input : String, App.questionsOf input = [] →
      App.split_questions input = [String.mk (PyStr.pyStrip input.data)]) := by
  refine ⟨by decide, by decide, ?_, ?_⟩
  · intro input q hq
    unfold App.questionsOf at hq
    rw [List.mem_filterMap] at hq
    obtain ⟨part, -, hpart⟩ := hq
    unfold App.cleanPart at hpart
    split at hpart
    · injection hpart with hq2
      subst hq2
      show App.endsWithQM
        (if App.endsWithQM (PyStr.pyStrip part) then PyStr.pyStrip part
         else PyStr.pyStrip part ++ ['?']) = true
      split
      · rename_i hend
        exact hend
      · unfold App.endsWithQM
        rw [List.getLast?_concat]
        rfl
    · exact absurd hpart (by simp)
  · intro input h
    unfold App.split_questions
    rw [h]
    rfl

/-- Witness for C9 (amended) at concrete inputs. -/
theorem C9_split_questions_amended_witness :
    App.endsWithQM "Hi?".data = true ∧
    App.split_questions "???" = [String.mk (PyStr.pyStrip "???".data)] :=
  ⟨C9_split_questions_amended.2.2.1 "Hi" "Hi?" (by decide),
   C9_split_questions_amended.2.2.2 "???" (by decide)⟩
